import Mathlib

/-!
Converters between host (Python) objects and native containers / enumerations.

A shallow embedding of `src/trunk/src/util/python_converters.hh`.

The header is glue around the CPython C API and Boost.Python.  Those two libraries are
not part of the repository; the handful of their entry points the header calls are
modelled in the first section, following their reference documentation:

* a host object carries the behaviour of the protocol slots the header queries
  (`PySequence_Check`, `PySequence_Size`, `PySequence_GetItem`, `PyIter_Check`,
  `PyIter_Next`);
* `boost::python::extract<T>` and the to-python conversion of `T` are parameters of the
  converters, as the element type `T` is a template parameter;
* a C++ exception leaving a function is an `Exit` value, and the vector passed by
  reference is returned together with it, so that its contents at the moment of the
  throw can be observed;
* the loops are given fuel: the source loops have no termination argument of their own
  (`i != size` with a negative `size`, an iterator that never ends), and a run that
  uses up its fuel is reported as `Exit.running`.

Idealisations: allocation never fails (`push_back` and `list::append` succeed, and
`reserve` fails only for a request above `max_size()`, which is a parameter of the
model), reference counts are not tracked, and the `Py_ssize_t` loop counter is a
mathematical integer.  The data model of the enum converters is LP64 (`long` and
`unsigned long` are 64 bits wide).
-/

namespace das
namespace python_converters

/-! ## Host object model -/

/-- Outcome of one call of `PyIter_Next`. -/
inductive IterStep (α : Type) where
  /-- a new reference to the next item -/
  | item (o : α)
  /-- the call returned `NULL` with no error set: the iterator is exhausted -/
  | stop
  /-- the call returned `NULL` with the error indicator set: the iteration machinery
  raised -/
  | error
  /-- the call does not return: the object's type has no `tp_iternext` slot and the call
  goes through the `NULL` pointer (undefined behaviour) -/
  | undefined

/-- Host objects, as far as the converters can observe them.

`object` is an instance of an arbitrary type, given by what the protocol functions
answer for it: whether it provides the sequence protocol and the iterator protocol (a
type may provide both), the value `PySequence_Size` reports (`-1` when the length query
fails), what `PySequence_GetItem` returns at each position (`none` is `NULL`), and, when
it provides the iterator protocol, what the successive calls of its `tp_iternext` slot
return. -/
inductive PyObject where
  /-- the object `None` -/
  | none
  /-- an integral object with mathematical value `n` -/
  | int (n : Int)
  /-- a list object (`PyList_Type`) -/
  | list (items : List PyObject)
  /-- an instance of any other type -/
  | object (sequence_check iter_check : Bool) (sq_length : Int)
      (sq_item : Int → Option PyObject) (tp_iternext : Nat → IterStep PyObject)

/-- Host function `PySequence_Check(o)`. -/
def PySequence_Check : PyObject → Bool
  | .list _ => true
  | .object s _ _ _ _ => s
  | _ => false

/-- Host function `PyIter_Check(o)`. -/
def PyIter_Check : PyObject → Bool
  | .object _ it _ _ _ => it
  | _ => false

/-- Host function `PySequence_Size(o)`; `-1` on failure. -/
def PySequence_Size : PyObject → Int
  | .list items => items.length
  | .object _ _ n _ _ => n
  | _ => -1

/-- Host function `PySequence_GetItem(o, i)`; `none` is the `NULL` returned on failure.
For a list a negative index counts from the end and an index outside the list fails. -/
def PySequence_GetItem : PyObject → Int → Option PyObject
  | .list items, i =>
    let j := if i < 0 then i + items.length else i
    if 0 ≤ j then items[j.toNat]? else Option.none
  | .object _ _ _ get _, i => get i
  | _, _ => Option.none

/-- Host function `PyIter_Next(o)`: the outcome of call number `k` (counted from 0) on
the object.  The iterator's own state is the number of calls made so far.  The function
calls the `tp_iternext` slot without testing it, so for an object without the iterator
protocol (for which `PyIter_Check` is false and the slot is `NULL`) the behaviour is
undefined. -/
def PyIter_Next : PyObject → Nat → IterStep PyObject
  | .object _ true _ _ next, k => next k
  | _, _ => .undefined

/-- How a C++ function was left. -/
inductive Exit where
  /-- control reached the end of the function (or of the loop) -/
  | returned
  /-- the exception `boost::python::error_already_set` was thrown; the host error
  indicator is set -/
  | error_already_set
  /-- the exception `std::length_error` was thrown by `std::vector::reserve` -/
  | length_error
  /-- undefined behaviour: a `NULL` item was handed to `extract<T>`, or `PyIter_Next` was
  called on an object without the iterator protocol -/
  | undefined
  /-- the fuel ran out while the loop was still running -/
  | running
deriving DecidableEq, Repr

/-- The call `std::vector<T>::reserve(n)`, made with a `Py_ssize_t`, on a vector whose
`max_size()` is `max_size`.  `reserve` throws `std::length_error` (`none`) for a request
above `max_size()`; the argument is converted to `size_t`, so that a negative value is
such a request as well.  Otherwise only the capacity changes. -/
def reserve {T : Type} (max_size : Nat) (vec : List T) (n : Int) : Option (List T) :=
  if n < 0 ∨ (max_size : Int) < n then Option.none else some vec

/-- The call `std::vector<T>::push_back(x)`. -/
def push_back {T : Type} (vec : List T) (x : T) : List T := vec ++ [x]

/-! ## The element type `int` -/

/-- The constant `INT_MIN`. -/
def INT_MIN : Int := -2147483648

/-- The constant `INT_MAX`. -/
def INT_MAX : Int := 2147483647

/-- Values of the C++ type `int`. -/
abbrev CInt : Type := { n : Int // INT_MIN ≤ n ∧ n ≤ INT_MAX }

/-- Values of the type `std::vector<T>` whose `max_size()` is `max_size`: the sequences
of at most that many elements. -/
abbrev std_vector (T : Type) (max_size : Nat) : Type :=
  { l : List T // l.length ≤ max_size }

/-- The value of `std::vector<int>::max_size()` on LP64 with libstdc++,
`PTRDIFF_MAX / sizeof(int)`. -/
def max_size_int : Nat := 2305843009213693951

/-- To-python conversion of an `int`: the host integer of the same value. -/
def int_to_python (x : CInt) : PyObject := .int x.val

/-- The extraction `boost::python::extract<int>`: a host integer in the range of `int`
converts to that value; anything else is refused (`none`: the extraction throws). -/
def extract_int : PyObject → Option CInt
  | .int n => if h : INT_MIN ≤ n ∧ n ≤ INT_MAX then some ⟨n, h⟩ else Option.none
  | _ => Option.none

/-! ## `vector_from_sequence_converter` -/

/-- State in which `vector_from_sequence_converter::construct` is left: the vector passed
by reference, the positions handed to `PySequence_GetItem` in call order, and the exit. -/
structure SeqRun (T : Type) where
  vec : List T
  fetched : List Int
  exit : Exit

namespace vector_from_sequence_converter

/-- Source function `convertible`: `return PySequence_Check(obj_ptr);` -/
def convertible (obj_ptr : PyObject) : Bool :=
  PySequence_Check obj_ptr

/-- The loop `for (Py_ssize_t i = 0; i != size; ++i) { ... }` of `construct`, entered with
counter `i`.  One unit of fuel is spent per evaluation of the loop test. -/
def loop {T : Type} (extract : PyObject → Option T) (obj_ptr : PyObject) (size : Int) :
    Nat → Int → List T → List Int → SeqRun T
  | 0, _, vec, fetched => ⟨vec, fetched, .running⟩
  | fuel + 1, i, vec, fetched =>
    if i != size then
      match PySequence_GetItem obj_ptr i with
      | Option.none => ⟨vec, fetched ++ [i], .undefined⟩
      | some item =>
        match extract item with
        | Option.none => ⟨vec, fetched ++ [i], .error_already_set⟩
        | some x => loop extract obj_ptr size fuel (i + 1) (push_back vec x) (fetched ++ [i])
    else ⟨vec, fetched, .returned⟩

/-- Source function `construct(vec, obj_ptr)`: the length query, `vec.reserve(size)`, then
the retrieval loop.  The `decref` of each item has no effect that is observed here.
The first argument is the vector's `max_size()`. -/
def construct {T : Type} (max_size : Nat) (extract : PyObject → Option T) (fuel : Nat)
    (vec : List T) (obj_ptr : PyObject) : SeqRun T :=
  let size := PySequence_Size obj_ptr
  match reserve max_size vec size with
  | Option.none => ⟨vec, [], .length_error⟩
  | some vec => loop extract obj_ptr size fuel 0 vec []

end vector_from_sequence_converter

/-! ## `vector_from_iterator_converter` -/

/-- State in which `vector_from_iterator_converter::construct` is left: the vector passed
by reference, the number of `PyIter_Next` calls made, the value of `PyErr_Occurred()`,
and the exit. -/
structure IterRun (T : Type) where
  vec : List T
  calls : Nat
  err : Bool
  exit : Exit

namespace vector_from_iterator_converter

/-- Source function `convertible`:
`return PyIter_Check(obj_ptr) && !PySequence_Check(obj_ptr);` -/
def convertible (obj_ptr : PyObject) : Bool :=
  PyIter_Check obj_ptr && !PySequence_Check obj_ptr

/-- The loop `while ((item = PyIter_Next(obj_ptr))) { ... }` of `construct`, entered after
`k` calls of `PyIter_Next` with error indicator `err`.  `Exit.returned` means that the
loop was left through its test. -/
def loop {T : Type} (extract : PyObject → Option T) (obj_ptr : PyObject) :
    Nat → Nat → Bool → List T → IterRun T
  | 0, k, err, vec => ⟨vec, k, err, .running⟩
  | fuel + 1, k, err, vec =>
    match PyIter_Next obj_ptr k with
    | .item item =>
      match extract item with
      | Option.none => ⟨vec, k + 1, true, .error_already_set⟩
      | some x => loop extract obj_ptr fuel (k + 1) err (push_back vec x)
    | .stop => ⟨vec, k + 1, err, .returned⟩
    | .error => ⟨vec, k + 1, true, .returned⟩
    | .undefined => ⟨vec, k + 1, err, .undefined⟩

/-- Source function `construct(vec, obj_ptr)`: the fetch loop, then
`if (PyErr_Occurred()) throw boost::python::error_already_set();`.
`err` is the error indicator on entry. -/
def construct {T : Type} (extract : PyObject → Option T) (fuel : Nat) (err : Bool)
    (vec : List T) (obj_ptr : PyObject) : IterRun T :=
  let r := loop extract obj_ptr fuel 0 err vec
  match r.exit with
  | .returned => if r.err then { r with exit := .error_already_set } else r
  | _ => r

end vector_from_iterator_converter

/-! ## `vector_to_list_converter` -/

namespace vector_to_list_converter

/-- Source function `convert(vec)`: an empty `boost::python::list`, then
`ret.append(*it)` for every element from `vec.begin()` to `vec.end()`. -/
def convert {T : Type} (to_python : T → PyObject) (vec : List T) : PyObject :=
  .list (vec.foldl (fun ret x => ret ++ [to_python x]) [])

end vector_to_list_converter

/-! ## Enumerations -/

/-- The constant `LONG_MIN` (LP64). -/
def LONG_MIN : Int := -9223372036854775808

/-- The constant `LONG_MAX` (LP64). -/
def LONG_MAX : Int := 9223372036854775807

/-- The constant `ULONG_MAX` (LP64). -/
def ULONG_MAX : Nat := 18446744073709551615

/-- The unsigned integral types that can underlie an enumeration. -/
inductive UnderlyingType where
  | unsigned_char
  | unsigned_short
  | unsigned_int
  | unsigned_long
deriving DecidableEq, Repr

/-- Width in bits of an underlying type. -/
def UnderlyingType.bits : UnderlyingType → Nat
  | .unsigned_char => 8
  | .unsigned_short => 16
  | .unsigned_int => 32
  | .unsigned_long => 64

/-- An enumeration type: its underlying unsigned type and the values of its enumerators.
An enumeration value is represented by its underlying value. -/
structure EnumType where
  underlying : UnderlyingType
  enumerators : List Nat
  fits : ∀ v ∈ enumerators, v < 2 ^ underlying.bits

/-- The conversion `static_cast<T>(x)` of an integral `x` to an enumeration with
underlying type `U`: the value is reduced modulo `2 ^ U.bits`. -/
def static_cast_enum (U : UnderlyingType) (x : Int) : Nat :=
  (x % 2 ^ U.bits).toNat

/-- The conversion `static_cast<unsigned long>(enumval)`. -/
def static_cast_ulong (enumval : Nat) : Nat :=
  enumval % 2 ^ 64

/-- Conversion of an `unsigned long` argument to a `long` parameter. -/
def ulong_to_long (x : Nat) : Int :=
  if (x : Int) ≤ LONG_MAX then x else (x : Int) - 2 ^ 64

/-- Host function `PyInt_Check(o)` of the legacy host: the small-integer type holds a C
`long`; an integer outside that range is of the arbitrary-precision type. -/
def PyInt_Check : PyObject → Bool
  | .int n => decide (LONG_MIN ≤ n ∧ n ≤ LONG_MAX)
  | _ => false

/-- Host function `PyLong_Check(o)` of the modern host, whose only integer type is
arbitrary-precision. -/
def PyLong_Check : PyObject → Bool
  | .int _ => true
  | _ => false

/-- Host function `PyInt_AsLong(o)`: the value, and whether the error indicator was set.
A value that does not fit a `long`, or an object that is not an integer, gives `-1` with
an error set. -/
def PyInt_AsLong : PyObject → Int × Bool
  | .int n => if LONG_MIN ≤ n ∧ n ≤ LONG_MAX then (n, false) else (-1, true)
  | _ => (-1, true)

/-- Host function `PyLong_AsUnsignedLong(o)`: the value, and whether the error indicator
was set.  A negative value, a value above `ULONG_MAX`, or an object that is not an
integer, gives `(unsigned long)-1` with an error set. -/
def PyLong_AsUnsignedLong : PyObject → Nat × Bool
  | .int n => if 0 ≤ n ∧ n ≤ (ULONG_MAX : Int) then (n.toNat, false) else (ULONG_MAX, true)
  | _ => (ULONG_MAX, true)

/-- Host function `PyInt_FromLong(x)`. -/
def PyInt_FromLong (x : Int) : PyObject := .int x

/-- Host function `PyLong_FromUnsignedLong(x)`. -/
def PyLong_FromUnsignedLong (x : Nat) : PyObject := .int x

/-- State in which `enum_from_int_converter::construct` is left: the enumeration value
assigned through the reference and the host error indicator.  The function has no
`throw` and always returns. -/
structure EnumRun where
  enumval : Nat
  err : Bool
deriving DecidableEq, Repr

namespace enum_from_int_converter

/-- Source function `convertible`: `PyInt_Check` when `PY_MAJOR_VERSION < 3`, else
`PyLong_Check`. -/
def convertible (PY_MAJOR_VERSION : Nat) (obj_ptr : PyObject) : Bool :=
  if PY_MAJOR_VERSION < 3 then PyInt_Check obj_ptr else PyLong_Check obj_ptr

/-- Source function `construct(enumval, obj_ptr)`:
`enumval = static_cast<T>(PyInt_AsLong(obj_ptr))` when `PY_MAJOR_VERSION < 3`, else
`enumval = static_cast<T>(PyLong_AsUnsignedLong(obj_ptr))`.  The error the accessor may
set is not examined. -/
def construct (PY_MAJOR_VERSION : Nat) (U : UnderlyingType) (obj_ptr : PyObject) : EnumRun :=
  if PY_MAJOR_VERSION < 3 then
    let r := PyInt_AsLong obj_ptr
    ⟨static_cast_enum U r.1, r.2⟩
  else
    let r := PyLong_AsUnsignedLong obj_ptr
    ⟨static_cast_enum U r.1, r.2⟩

end enum_from_int_converter

namespace enum_to_int_converter

/-- Source function `convert(enumval)`:
`PyInt_FromLong(static_cast<unsigned long>(enumval))` when `PY_MAJOR_VERSION < 3`, else
`PyLong_FromUnsignedLong(static_cast<unsigned long>(enumval))`. -/
def convert (PY_MAJOR_VERSION : Nat) (enumval : Nat) : PyObject :=
  if PY_MAJOR_VERSION < 3 then
    PyInt_FromLong (ulong_to_long (static_cast_ulong enumval))
  else
    PyLong_FromUnsignedLong (static_cast_ulong enumval)

end enum_to_int_converter

/-! ## Readings of the host objects used in the statements -/

/-- The element of a host sequence at position `i`, converted to `T`: `none` when the
element cannot be retrieved or does not convert. -/
def converted_item {T : Type} (extract : PyObject → Option T) (obj_ptr : PyObject)
    (i : Nat) : Option T :=
  (PySequence_GetItem obj_ptr (i : Int)).bind extract

/-- The item yielded by call number `k` of `PyIter_Next`, converted to `T`: `none` when
the call yields no item or the item does not convert. -/
def converted_next {T : Type} (extract : PyObject → Option T) (obj_ptr : PyObject)
    (k : Nat) : Option T :=
  match PyIter_Next obj_ptr k with
  | .item item => extract item
  | _ => Option.none

/-! ## Particular host objects and types -/

/-- An instance of a class that defines both item access and the iterator protocol. -/
def both_protocols : PyObject :=
  .object true true 2 (fun i => if i = 0 ∨ i = 1 then some (.int i) else Option.none)
    (fun _ => .stop)

/-- An instance of a class that defines item access but whose length query fails:
`PySequence_Check` holds for it and `PySequence_Size` reports `-1`. -/
def unsized_sequence : PyObject :=
  .object true false (-1) (fun _ => some (.int 0)) (fun _ => .undefined)

/-- An instance of a class whose length query answers `2^62` and whose item access
answers the integer 0 at every position. -/
def huge_sequence : PyObject :=
  .object true false 4611686018427387904 (fun _ => some (.int 0)) (fun _ => .undefined)

/-- An instance of a class whose length query answers `2^62` and whose item access
answers `None` at position 1 and the integer 0 at every other position. -/
def huge_sequence_with_none : PyObject :=
  .object true false 4611686018427387904
    (fun i => if i = 1 then some .none else some (.int 0)) (fun _ => .undefined)

/-- A generator object that yields `items` one after the other and then ends as `last`
says (`stop`: it returns; `error`: it raises). -/
def generator (items : List PyObject) (last : IterStep PyObject) : PyObject :=
  .object false true (-1) (fun _ => Option.none)
    (fun k => match items[k]? with
      | some x => .item x
      | Option.none => if k = items.length then last else .stop)

/-- An enumeration of flags over `unsigned long` whose top enumerator is bit 63. -/
def wide_flags : EnumType :=
  ⟨.unsigned_long, [1, 9223372036854775808], by
    intro v hv
    simp only [List.mem_cons, List.mem_singleton, List.not_mem_nil, or_false] at hv
    rcases hv with rfl | rfl <;> decide⟩

/-- The positions `0, 1, ..., n-1`. -/
def positions (n : Nat) : List Int :=
  (List.range n).map Int.ofNat

/-! ## Lemmas on the sequence loop -/

theorem converted_item_some {T : Type} {extract : PyObject → Option T} {obj_ptr : PyObject}
    {i : Nat} {x : T} (h : converted_item extract obj_ptr i = some x) :
    ∃ item, PySequence_GetItem obj_ptr (i : Int) = some item ∧ extract item = some x := by
  unfold converted_item at h
  cases hg : PySequence_GetItem obj_ptr (i : Int) with
  | none => rw [hg] at h; simp at h
  | some item => rw [hg] at h; exact ⟨item, rfl, by simpa using h⟩

theorem seq_loop_succ_of_converted {T : Type} {extract : PyObject → Option T}
    {obj_ptr : PyObject} {size : Int} {a : Nat} {x : T} (fuel : Nat) (vec : List T)
    (fetched : List Int) (hne : (a : Int) ≠ size)
    (h : converted_item extract obj_ptr a = some x) :
    vector_from_sequence_converter.loop extract obj_ptr size (fuel + 1) (a : Int) vec fetched
      = vector_from_sequence_converter.loop extract obj_ptr size fuel ((a + 1 : Nat) : Int)
          (vec ++ [x]) (fetched ++ [(a : Int)]) := by
  obtain ⟨item, hg, hx⟩ := converted_item_some h
  have hb : ((a : Int) != size) = true := by
    simp only [bne_iff_ne, ne_eq]
    exact hne
  rw [vector_from_sequence_converter.loop]
  simp only [hb, if_true, hg, hx, push_back]
  push_cast
  rfl

theorem seq_loop_steps {T : Type} (extract : PyObject → Option T) (obj_ptr : PyObject)
    (size : Int) (f : Nat → T) :
    ∀ (d a fuel : Nat) (vec : List T) (fetched : List Int),
      (∀ j : Nat, a ≤ j → j < a + d → (j : Int) ≠ size) →
      (∀ j, a ≤ j → j < a + d → converted_item extract obj_ptr j = some (f j)) →
      vector_from_sequence_converter.loop extract obj_ptr size (fuel + d) (a : Int) vec fetched
        = vector_from_sequence_converter.loop extract obj_ptr size fuel ((a + d : Nat) : Int)
            (vec ++ (List.range' a d).map f)
            (fetched ++ (List.range' a d).map Int.ofNat) := by
  intro d
  induction d with
  | zero => intro a fuel vec fetched _ _; simp
  | succ d ih =>
    intro a fuel vec fetched hle hconv
    have hne : (a : Int) ≠ size := hle a (le_refl a) (by omega)
    have ha : converted_item extract obj_ptr a = some (f a) := hconv a (le_refl a) (by omega)
    rw [show fuel + (d + 1) = (fuel + d) + 1 from rfl, seq_loop_succ_of_converted _ _ _ hne ha]
    rw [ih (a + 1) fuel _ _ (fun j h1 h2 => hle j (by omega) (by omega))
      (fun j h1 h2 => hconv j (by omega) (by omega))]
    have e : a + 1 + d = a + (d + 1) := by omega
    simp [List.range'_succ, e]


theorem seq_loop_at_size {T : Type} (extract : PyObject → Option T) (obj_ptr : PyObject)
    (size : Int) (fuel : Nat) (vec : List T) (fetched : List Int) :
    vector_from_sequence_converter.loop extract obj_ptr size (fuel + 1) size vec fetched
      = ⟨vec, fetched, .returned⟩ := by
  rw [vector_from_sequence_converter.loop]
  simp

theorem seq_loop_refused {T : Type} {extract : PyObject → Option T} {obj_ptr : PyObject}
    {size : Int} {k : Nat} {item : PyObject} (fuel : Nat) (vec : List T) (fetched : List Int)
    (hlt : (k : Int) < size) (hget : PySequence_GetItem obj_ptr (k : Int) = some item)
    (hrefuse : extract item = Option.none) :
    vector_from_sequence_converter.loop extract obj_ptr size (fuel + 1) (k : Int) vec fetched
      = ⟨vec, fetched ++ [(k : Int)], .error_already_set⟩ := by
  have hne : ((k : Int) != size) = true := by
    simp only [bne_iff_ne, ne_eq]
    omega
  rw [vector_from_sequence_converter.loop]
  simp only [hne, if_true, hget, hrefuse]

theorem seq_loop_never_returns_of_refused {T : Type} {extract : PyObject → Option T}
    {obj_ptr : PyObject} {size : Int} {k : Nat} {item : PyObject}
    (hlt : (k : Int) < size) (hget : PySequence_GetItem obj_ptr (k : Int) = some item)
    (hrefuse : extract item = Option.none) :
    ∀ (fuel a : Nat) (vec : List T) (fetched : List Int), a ≤ k →
      (vector_from_sequence_converter.loop extract obj_ptr size fuel (a : Int) vec fetched).exit
        ≠ .returned := by
  intro fuel
  induction fuel with
  | zero => intro a vec fetched _; simp [vector_from_sequence_converter.loop]
  | succ fuel ih =>
    intro a vec fetched hak
    have hne : ((a : Int) != size) = true := by
      simp only [bne_iff_ne, ne_eq]
      omega
    rw [vector_from_sequence_converter.loop]
    simp only [hne, if_true]
    cases hg : PySequence_GetItem obj_ptr (a : Int) with
    | none => simp
    | some it =>
      cases hx : extract it with
      | none => simp [hx]
      | some x =>
        simp only [hx]
        have hak2 : a + 1 ≤ k := by
          rcases Nat.lt_or_ge a k with h | h
          · exact h
          · have e : a = k := le_antisymm hak h
            subst e
            rw [hg] at hget
            cases hget
            rw [hx] at hrefuse
            cases hrefuse
        have := ih (a + 1) (push_back vec x) (fetched ++ [(a : Int)]) hak2
        simpa using this

theorem seq_loop_never_returns_of_negative {T : Type} (extract : PyObject → Option T)
    (obj_ptr : PyObject) (size : Int) (hneg : size < 0) :
    ∀ (fuel : Nat) (i : Int) (vec : List T) (fetched : List Int), 0 ≤ i →
      (vector_from_sequence_converter.loop extract obj_ptr size fuel i vec fetched).exit
        ≠ .returned := by
  intro fuel
  induction fuel with
  | zero => intro i vec fetched _; simp [vector_from_sequence_converter.loop]
  | succ fuel ih =>
    intro i vec fetched hi
    have hne : (i != size) = true := by
      simp only [bne_iff_ne, ne_eq]
      omega
    rw [vector_from_sequence_converter.loop]
    simp only [hne, if_true]
    cases hg : PySequence_GetItem obj_ptr i with
    | none => simp
    | some it =>
      cases hx : extract it with
      | none => simp [hx]
      | some x => simpa [hx] using ih (i + 1) (push_back vec x) (fetched ++ [i]) (by omega)

theorem seq_loop_bounded {T : Type} (extract : PyObject → Option T) (obj_ptr : PyObject)
    (n : Nat) :
    ∀ (fuel a : Nat) (vec : List T) (fetched : List Int), a ≤ n → n - a < fuel →
      (vector_from_sequence_converter.loop extract obj_ptr (n : Int) fuel (a : Int) vec
          fetched).exit ≠ .running ∧
      ∃ m, a + m ≤ n ∧
        (vector_from_sequence_converter.loop extract obj_ptr (n : Int) fuel (a : Int) vec
          fetched).fetched = fetched ++ (List.range' a m).map Int.ofNat ∧
        ((vector_from_sequence_converter.loop extract obj_ptr (n : Int) fuel (a : Int) vec
          fetched).exit = .returned → a + m = n) := by
  intro fuel
  induction fuel with
  | zero => intro a vec fetched _ h; omega
  | succ fuel ih =>
    intro a vec fetched han hfuel
    rw [vector_from_sequence_converter.loop]
    by_cases hEq : a = n
    · subst hEq
      simp
    · have hne : ((a : Int) != (n : Int)) = true := by
        simp only [bne_iff_ne, ne_eq]
        omega
      simp only [hne, if_true]
      cases hg : PySequence_GetItem obj_ptr (a : Int) with
      | none =>
        refine ⟨by simp, 1, by omega, by simp, by simp⟩
      | some it =>
        cases hx : extract it with
        | none => refine ⟨by simp [hx], 1, by omega, by simp [hx], by simp [hx]⟩
        | some x =>
          simp only [hx]
          obtain ⟨h1, m, hm, hf, hr⟩ :=
            ih (a + 1) (push_back vec x) (fetched ++ [(a : Int)]) (by omega) (by omega)
          have hcast : ((a : Int) + 1) = ((a + 1 : Nat) : Int) := by push_cast; rfl
          simp only [hcast]
          refine ⟨h1, m + 1, by omega, ?_, fun h => by have := hr h; omega⟩
          rw [hf]
          simp [List.range'_succ]

theorem seq_construct_length_error {T : Type} (max_size : Nat)
    (extract : PyObject → Option T) (fuel : Nat) (vec : List T) (obj_ptr : PyObject)
    (h : PySequence_Size obj_ptr < 0 ∨ (max_size : Int) < PySequence_Size obj_ptr) :
    vector_from_sequence_converter.construct max_size extract fuel vec obj_ptr
      = ⟨vec, [], .length_error⟩ := by
  unfold vector_from_sequence_converter.construct
  simp [reserve, h]

theorem reserve_of_le {T : Type} (max_size : Nat) (vec : List T) (n : Nat)
    (hmax : n ≤ max_size) : reserve max_size vec (n : Int) = some vec := by
  have h : ¬ ((n : Int) < 0 ∨ (max_size : Int) < (n : Int)) := by omega
  unfold reserve
  rw [if_neg h]

theorem positions_eq_range' (n : Nat) : positions n = (List.range' 0 n).map Int.ofNat := by
  simp [positions, List.range_eq_range']

theorem seq_construct_all {T : Type} (max_size : Nat) (extract : PyObject → Option T)
    (obj_ptr : PyObject) (n : Nat) (f : Nat → T) (fuel : Nat) (vec : List T)
    (hsize : PySequence_Size obj_ptr = (n : Int)) (hmax : n ≤ max_size)
    (hconv : ∀ i, i < n → converted_item extract obj_ptr i = some (f i))
    (hfuel : n < fuel) :
    vector_from_sequence_converter.construct max_size extract fuel vec obj_ptr
      = ⟨vec ++ (List.range n).map f, positions n, .returned⟩ := by
  obtain ⟨g, rfl⟩ : ∃ g, fuel = (g + 1) + n := ⟨fuel - n - 1, by omega⟩
  have hres : reserve max_size vec (n : Int) = some vec := reserve_of_le max_size vec n hmax
  unfold vector_from_sequence_converter.construct
  simp only [hsize, hres]
  have h := seq_loop_steps extract obj_ptr (n : Int) f n 0 (g + 1) vec []
    (fun j _ hj => by omega) (fun j _ hj => hconv j (by omega))
  simp only [Nat.cast_zero, Nat.zero_add] at h
  rw [h, seq_loop_at_size]
  simp [positions_eq_range', List.range_eq_range']


theorem foldl_append_map {T : Type} (to_python : T → PyObject) :
    ∀ (vec : List T) (ret : List PyObject),
      vec.foldl (fun ret x => ret ++ [to_python x]) ret = ret ++ vec.map to_python := by
  intro vec
  induction vec with
  | nil => intro ret; simp
  | cons x xs ih => intro ret; simp [ih]

theorem convert_eq_list_map {T : Type} (to_python : T → PyObject) (vec : List T) :
    vector_to_list_converter.convert to_python vec = .list (vec.map to_python) := by
  simp [vector_to_list_converter.convert, foldl_append_map]

theorem getItem_list_natCast (items : List PyObject) (i : Nat) :
    PySequence_GetItem (.list items) (i : Int) = items[i]? := by
  have h : ¬ ((i : Int) < 0) := by omega
  simp [PySequence_GetItem, h]

theorem extract_int_to_python (x : CInt) : extract_int (int_to_python x) = some x := by
  simp [extract_int, int_to_python, x.property]

theorem converted_item_of_vector (v : List CInt) (d : CInt) (i : Nat) (hi : i < v.length) :
    converted_item extract_int (vector_to_list_converter.convert int_to_python v) i
      = some (v[i]?.getD d) := by
  rw [convert_eq_list_map]
  unfold converted_item
  rw [getItem_list_natCast]
  simp [hi, extract_int_to_python]

/-! ## Lemmas on the iterator loop -/

theorem converted_next_some {T : Type} {extract : PyObject → Option T} {obj_ptr : PyObject}
    {k : Nat} {x : T} (h : converted_next extract obj_ptr k = some x) :
    ∃ item, PyIter_Next obj_ptr k = .item item ∧ extract item = some x := by
  unfold converted_next at h
  cases hn : PyIter_Next obj_ptr k with
  | item it => rw [hn] at h; exact ⟨it, rfl, h⟩
  | stop => rw [hn] at h; simp at h
  | error => rw [hn] at h; simp at h
  | undefined => rw [hn] at h; simp at h

theorem iter_loop_steps {T : Type} (extract : PyObject → Option T) (obj_ptr : PyObject)
    (f : Nat → T) :
    ∀ (d a fuel : Nat) (err : Bool) (vec : List T),
      (∀ j, a ≤ j → j < a + d → converted_next extract obj_ptr j = some (f j)) →
      vector_from_iterator_converter.loop extract obj_ptr (fuel + d) a err vec
        = vector_from_iterator_converter.loop extract obj_ptr fuel (a + d) err
            (vec ++ (List.range' a d).map f) := by
  intro d
  induction d with
  | zero => intro a fuel err vec _; simp
  | succ d ih =>
    intro a fuel err vec hconv
    obtain ⟨item, hn, hx⟩ := converted_next_some (hconv a (le_refl a) (by omega))
    rw [show fuel + (d + 1) = (fuel + d) + 1 from rfl, vector_from_iterator_converter.loop]
    simp only [hn, hx, push_back]
    rw [ih (a + 1) fuel err _ (fun j h1 h2 => hconv j (by omega) (by omega))]
    have e : a + 1 + d = a + (d + 1) := by omega
    simp [List.range'_succ, e]

theorem iter_loop_stop {T : Type} (extract : PyObject → Option T) {obj_ptr : PyObject}
    {k : Nat} (fuel : Nat) (err : Bool) (vec : List T) (h : PyIter_Next obj_ptr k = .stop) :
    vector_from_iterator_converter.loop extract obj_ptr (fuel + 1) k err vec
      = ⟨vec, k + 1, err, .returned⟩ := by
  rw [vector_from_iterator_converter.loop]
  simp only [h]

theorem iter_loop_error {T : Type} (extract : PyObject → Option T) {obj_ptr : PyObject}
    {k : Nat} (fuel : Nat) (err : Bool) (vec : List T) (h : PyIter_Next obj_ptr k = .error) :
    vector_from_iterator_converter.loop extract obj_ptr (fuel + 1) k err vec
      = ⟨vec, k + 1, true, .returned⟩ := by
  rw [vector_from_iterator_converter.loop]
  simp only [h]

theorem iter_loop_err_of_error {T : Type} {extract : PyObject → Option T}
    {obj_ptr : PyObject} {n : Nat} (f : Nat → T)
    (hconv : ∀ i, i < n → converted_next extract obj_ptr i = some (f i))
    (herr : PyIter_Next obj_ptr n = .error) :
    ∀ (fuel a : Nat) (err : Bool) (vec : List T), a ≤ n →
      (vector_from_iterator_converter.loop extract obj_ptr fuel a err vec).exit = .returned →
      (vector_from_iterator_converter.loop extract obj_ptr fuel a err vec).err = true := by
  intro fuel
  induction fuel with
  | zero => intro a err vec _ h; simp [vector_from_iterator_converter.loop] at h
  | succ fuel ih =>
    intro a err vec han
    rcases Nat.lt_or_ge a n with hlt | hge
    · obtain ⟨item, hn, hx⟩ := converted_next_some (hconv a hlt)
      rw [vector_from_iterator_converter.loop]
      simp only [hn, hx]
      exact ih (a + 1) err _ hlt
    · have e : a = n := le_antisymm han hge
      subst e
      rw [iter_loop_error extract fuel err vec herr]
      intro _
      rfl

theorem iter_construct_exit_returned {T : Type} (extract : PyObject → Option T)
    (fuel : Nat) (err : Bool) (vec : List T) (obj_ptr : PyObject)
    (h : (vector_from_iterator_converter.construct extract fuel err vec obj_ptr).exit
      = .returned) :
    (vector_from_iterator_converter.loop extract obj_ptr fuel 0 err vec).exit = .returned ∧
    (vector_from_iterator_converter.loop extract obj_ptr fuel 0 err vec).err = false := by
  unfold vector_from_iterator_converter.construct at h
  generalize vector_from_iterator_converter.loop extract obj_ptr fuel 0 err vec = r at h
  obtain ⟨v, c, e, x⟩ := r
  cases x <;> cases e <;> simp_all

/-! ## Lemmas on the enumeration converters -/

theorem bits_le_64 (U : UnderlyingType) : 2 ^ U.bits ≤ 2 ^ 64 := by
  cases U <;> decide

theorem static_cast_enum_of_lt (U : UnderlyingType) (v : Nat) (hv : v < 2 ^ U.bits) :
    static_cast_enum U (v : Int) = v := by
  unfold static_cast_enum
  have h : ((v : Int) % 2 ^ U.bits) = (v : Int) := by
    apply Int.emod_eq_of_lt (by omega)
    exact_mod_cast hv
  rw [h]
  simp

theorem static_cast_ulong_of_lt (U : UnderlyingType) (v : Nat) (hv : v < 2 ^ U.bits) :
    static_cast_ulong v = v := by
  unfold static_cast_ulong
  exact Nat.mod_eq_of_lt (lt_of_lt_of_le hv (bits_le_64 U))

/-! ## The claims -/

/-- C1: a vector of `int` (a `std::vector<int>`, whatever its `max_size()`) converted to
a host list by `vector_to_list_converter::convert` and read back by
`vector_from_sequence_converter::construct` into an empty vector gives the same vector,
the call returning normally once the loop has fuel for its `v.length + 1` tests. -/
theorem vector_list_vector_roundtrip (max_size : Nat) (v : std_vector CInt max_size)
    (fuel : Nat) (hfuel : v.val.length < fuel) :
    vector_from_sequence_converter.construct max_size extract_int fuel []
        (vector_to_list_converter.convert int_to_python v.val)
      = ⟨v.val, positions v.val.length, .returned⟩ := by
  obtain ⟨v, hv⟩ := v
  have d : CInt := ⟨0, by decide⟩
  have hsize : PySequence_Size (vector_to_list_converter.convert int_to_python v)
      = (v.length : Int) := by
    rw [convert_eq_list_map]
    simp [PySequence_Size]
  show vector_from_sequence_converter.construct max_size extract_int fuel []
        (vector_to_list_converter.convert int_to_python v)
      = ⟨v, positions v.length, .returned⟩
  rw [seq_construct_all max_size extract_int _ v.length (fun i => v[i]?.getD d) fuel []
    hsize hv (fun i hi => converted_item_of_vector v d i hi) hfuel]
  have hmap : List.map (fun i => v[i]?.getD d) (List.range v.length) = v := by
    apply List.ext_getElem
    · simp
    · intro i h1 h2
      simp [List.getElem?_eq_getElem h2]
  rw [hmap]
  rfl

/-- C1 on the vector `[7, -3, 7]`. -/
theorem vector_list_vector_roundtrip_witness :
    vector_from_sequence_converter.construct max_size_int extract_int 4 []
        (vector_to_list_converter.convert int_to_python
          [⟨7, by decide⟩, ⟨-3, by decide⟩, ⟨7, by decide⟩])
      = ⟨[⟨7, by decide⟩, ⟨-3, by decide⟩, ⟨7, by decide⟩], [0, 1, 2], .returned⟩ :=
  vector_list_vector_roundtrip max_size_int
    ⟨[⟨7, by decide⟩, ⟨-3, by decide⟩, ⟨7, by decide⟩], by decide⟩ 4 (by decide)

/-- C2: the sequence adapter and the iterator adapter never both accept an object; an
object that passes both the sequence check and the iterator check is accepted by the
sequence adapter and rejected by the iterator adapter; and the iterator adapter accepts
exactly the objects that pass the iterator check and fail the sequence check. -/
theorem convertible_mutually_exclusive (obj_ptr : PyObject) :
    ¬ (vector_from_sequence_converter.convertible obj_ptr = true ∧
        vector_from_iterator_converter.convertible obj_ptr = true) ∧
    (PySequence_Check obj_ptr = true ∧ PyIter_Check obj_ptr = true →
      vector_from_sequence_converter.convertible obj_ptr = true ∧
        vector_from_iterator_converter.convertible obj_ptr = false) ∧
    (vector_from_iterator_converter.convertible obj_ptr = true ↔
      PyIter_Check obj_ptr = true ∧ PySequence_Check obj_ptr = false) := by
  unfold vector_from_sequence_converter.convertible vector_from_iterator_converter.convertible
  cases PySequence_Check obj_ptr <;> cases PyIter_Check obj_ptr <;> simp

/-- C2 on an object that passes both the sequence check and the iterator check. -/
theorem convertible_mutually_exclusive_witness :
    (PySequence_Check both_protocols = true ∧ PyIter_Check both_protocols = true) ∧
    vector_from_sequence_converter.convertible both_protocols = true ∧
    vector_from_iterator_converter.convertible both_protocols = false :=
  ⟨⟨rfl, rfl⟩, (convertible_mutually_exclusive both_protocols).2.1 ⟨rfl, rfl⟩⟩

/-- C3, the claim as stated fails: a host sequence that reports length `2^62` and whose
element at every position converts to `int`.  The length is above the `max_size()` of a
`std::vector<int>`, so `vec.reserve(size)` throws `std::length_error`: `construct` leaves
the vector empty, retrieves nothing, and with no amount of fuel returns normally. -/
theorem sequence_construct_length_error_above_max_size :
    PySequence_Size huge_sequence = 4611686018427387904 ∧
    (∀ i : Nat, converted_item extract_int huge_sequence i = some ⟨0, by decide⟩) ∧
    vector_from_sequence_converter.construct max_size_int extract_int 1 [] huge_sequence
      = ⟨[], [], .length_error⟩ ∧
    ¬ ∃ fuel,
      (vector_from_sequence_converter.construct max_size_int extract_int fuel []
        huge_sequence).exit = .returned := by
  have h : ∀ fuel,
      vector_from_sequence_converter.construct max_size_int extract_int fuel []
        huge_sequence = ⟨[], [], .length_error⟩ :=
    fun fuel => seq_construct_length_error max_size_int extract_int fuel [] huge_sequence
      (Or.inr (by decide))
  refine ⟨rfl, fun _ => rfl, h 1, ?_⟩
  rintro ⟨fuel, hf⟩
  rw [h fuel] at hf
  cases hf

/-- C3, amended: for a host sequence that reports a length `n` not above the vector's
`max_size()` and whose elements at positions `0 .. n-1` all convert to `T` (`f i` being
the conversion of the element at position `i`),
`vector_from_sequence_converter::construct` on an empty vector returns normally with a
vector of length `n` whose element at each index `i < n` is the conversion of the
sequence's element at position `i`, having retrieved the positions `0, 1, ..., n-1` in
that order. -/
theorem sequence_construct_converts_all {T : Type} (max_size : Nat)
    (extract : PyObject → Option T) (obj_ptr : PyObject) (n : Nat) (f : Nat → T)
    (fuel : Nat)
    (hsize : PySequence_Size obj_ptr = (n : Int)) (hmax : n ≤ max_size)
    (hconv : ∀ i, i < n → converted_item extract obj_ptr i = some (f i))
    (hfuel : n < fuel) :
    (vector_from_sequence_converter.construct max_size extract fuel [] obj_ptr).exit
      = .returned ∧
    (vector_from_sequence_converter.construct max_size extract fuel [] obj_ptr).vec.length
      = n ∧
    (∀ i, i < n →
      (vector_from_sequence_converter.construct max_size extract fuel [] obj_ptr).vec[i]?
        = converted_item extract obj_ptr i) ∧
    (vector_from_sequence_converter.construct max_size extract fuel [] obj_ptr).fetched
      = positions n := by
  rw [seq_construct_all max_size extract obj_ptr n f fuel [] hsize hmax hconv hfuel]
  refine ⟨rfl, by simp, ?_, rfl⟩
  intro i hi
  simp [hconv i hi, hi]

/-- C3 (amended) on the host list `[10, 20, 30, 40, 50]`. -/
theorem sequence_construct_converts_all_witness :
    (vector_from_sequence_converter.construct max_size_int extract_int 6 []
        (.list [.int 10, .int 20, .int 30, .int 40, .int 50])).exit = .returned ∧
    (vector_from_sequence_converter.construct max_size_int extract_int 6 []
        (.list [.int 10, .int 20, .int 30, .int 40, .int 50])).vec.length = 5 ∧
    (∀ i, i < 5 →
      (vector_from_sequence_converter.construct max_size_int extract_int 6 []
          (.list [.int 10, .int 20, .int 30, .int 40, .int 50])).vec[i]?
        = converted_item extract_int (.list [.int 10, .int 20, .int 30, .int 40, .int 50]) i) ∧
    (vector_from_sequence_converter.construct max_size_int extract_int 6 []
        (.list [.int 10, .int 20, .int 30, .int 40, .int 50])).fetched = positions 5 :=
  sequence_construct_converts_all max_size_int extract_int
    (.list [.int 10, .int 20, .int 30, .int 40, .int 50]) 5
    (fun i => ([⟨10, by decide⟩, ⟨20, by decide⟩, ⟨30, by decide⟩, ⟨40, by decide⟩,
      ⟨50, by decide⟩] : List CInt).getD i ⟨0, by decide⟩) 6 rfl (by decide)
    (by intro i hi; interval_cases i <;> rfl)
    (by decide)

/-- C6, the claim as stated fails: a host sequence that reports length `2^62`, whose
element at position 0 converts to `int` and whose element at position 1 is `None`, which
the extraction refuses.  The length is above the `max_size()` of a `std::vector<int>`, so
`vec.reserve(size)` throws `std::length_error` before any retrieval: no error is raised
at position 1, and no position is retrieved at all. -/
theorem sequence_construct_length_error_before_refused :
    PySequence_Size huge_sequence_with_none = 4611686018427387904 ∧
    converted_item extract_int huge_sequence_with_none 0 = some ⟨0, by decide⟩ ∧
    PySequence_GetItem huge_sequence_with_none 1 = some .none ∧
    extract_int .none = Option.none ∧
    vector_from_sequence_converter.construct max_size_int extract_int 3 []
        huge_sequence_with_none = ⟨[], [], .length_error⟩ ∧
    ¬ ∃ fuel,
      (vector_from_sequence_converter.construct max_size_int extract_int fuel []
        huge_sequence_with_none).exit = .error_already_set := by
  have h : ∀ fuel,
      vector_from_sequence_converter.construct max_size_int extract_int fuel []
        huge_sequence_with_none = ⟨[], [], .length_error⟩ :=
    fun fuel => seq_construct_length_error max_size_int extract_int fuel []
      huge_sequence_with_none (Or.inr (by decide))
  refine ⟨rfl, rfl, rfl, rfl, h 3, ?_⟩
  rintro ⟨fuel, hf⟩
  rw [h fuel] at hf
  cases hf

/-- C6, amended: for a host sequence that reports length `n`, whose elements at positions
`0 .. k-1` convert to `T` and whose element at position `k < n` is refused by the
extraction: when `n` is not above the vector's `max_size()`,
`vector_from_sequence_converter::construct` on an empty vector throws
`error_already_set` while handling position `k`, the positions retrieved being exactly
`0, ..., k` (none after `k`); when `n` is above `max_size()` it throws
`std::length_error` before any retrieval; and in either case, with no amount of fuel does
the call return normally, so that no container is handed back as a result. -/
theorem sequence_construct_raises_at_refused {T : Type} (max_size : Nat)
    (extract : PyObject → Option T) (obj_ptr : PyObject) (n k : Nat) (f : Nat → T)
    (item : PyObject)
    (hsize : PySequence_Size obj_ptr = (n : Int)) (hk : k < n)
    (hconv : ∀ i, i < k → converted_item extract obj_ptr i = some (f i))
    (hget : PySequence_GetItem obj_ptr (k : Int) = some item)
    (hrefuse : extract item = Option.none) :
    (n ≤ max_size → ∀ fuel, k < fuel →
      vector_from_sequence_converter.construct max_size extract fuel [] obj_ptr
        = ⟨(List.range k).map f, positions (k + 1), .error_already_set⟩) ∧
    (max_size < n → ∀ fuel,
      vector_from_sequence_converter.construct max_size extract fuel [] obj_ptr
        = ⟨[], [], .length_error⟩) ∧
    (∀ fuel,
      (vector_from_sequence_converter.construct max_size extract fuel [] obj_ptr).exit
        ≠ .returned) := by
  have hlt : (k : Int) < (n : Int) := by omega
  have hbig : max_size < n → ∀ fuel,
      vector_from_sequence_converter.construct max_size extract fuel [] obj_ptr
        = ⟨[], [], .length_error⟩ := by
    intro hmax fuel
    exact seq_construct_length_error max_size extract fuel [] obj_ptr
      (Or.inr (by rw [hsize]; omega))
  refine ⟨?_, hbig, ?_⟩
  · intro hmax fuel hfuel
    have hres := reserve_of_le max_size ([] : List T) n hmax
    obtain ⟨g, rfl⟩ : ∃ g, fuel = (g + 1) + k := ⟨fuel - k - 1, by omega⟩
    unfold vector_from_sequence_converter.construct
    simp only [hsize, hres]
    have h := seq_loop_steps extract obj_ptr (n : Int) f k 0 (g + 1) [] []
      (fun j _ hj => by omega) (fun j _ hj => hconv j (by omega))
    simp only [Nat.cast_zero, Nat.zero_add] at h
    rw [h, seq_loop_refused g _ _ hlt hget hrefuse]
    simp [positions_eq_range', List.range_eq_range', List.range'_concat]
  · intro fuel
    rcases Nat.lt_or_ge max_size n with hmax | hmax
    · rw [hbig hmax fuel]
      simp
    · have hres := reserve_of_le max_size ([] : List T) n hmax
      unfold vector_from_sequence_converter.construct
      simp only [hsize, hres]
      have h := seq_loop_never_returns_of_refused hlt hget hrefuse fuel 0 [] []
        (Nat.zero_le k)
      simpa using h

/-- C6 (amended) on the host list `[1, 2, None, 4]`: the extraction of `None` is refused
at position 2. -/
theorem sequence_construct_raises_at_refused_witness :
    (∀ fuel, 2 < fuel →
      vector_from_sequence_converter.construct max_size_int extract_int fuel []
          (.list [.int 1, .int 2, .none, .int 4])
        = ⟨[⟨1, by decide⟩, ⟨2, by decide⟩], [0, 1, 2], .error_already_set⟩) ∧
    (∀ fuel,
      (vector_from_sequence_converter.construct max_size_int extract_int fuel []
          (.list [.int 1, .int 2, .none, .int 4])).exit ≠ .returned) :=
  ⟨(sequence_construct_raises_at_refused max_size_int extract_int
      (.list [.int 1, .int 2, .none, .int 4]) 4 2
      (fun i => ([⟨1, by decide⟩, ⟨2, by decide⟩] : List CInt).getD i ⟨0, by decide⟩)
      .none rfl (by decide) (by intro i hi; interval_cases i <;> rfl) rfl rfl).1
      (by decide),
    (sequence_construct_raises_at_refused max_size_int extract_int
      (.list [.int 1, .int 2, .none, .int 4]) 4 2
      (fun i => ([⟨1, by decide⟩, ⟨2, by decide⟩] : List CInt).getD i ⟨0, by decide⟩)
      .none rfl (by decide) (by intro i hi; interval_cases i <;> rfl) rfl rfl).2.2⟩

/-- C9: `vector_to_list_converter::convert` returns a host list holding the host
representations of the vector's elements in order: the list has the vector's length, its
element at every index `i` is the representation of `vec[i]` (and there is none beyond
the vector's length), and the empty vector gives the empty list. -/
theorem vector_to_list_convert_preserves {T : Type} (to_python : T → PyObject) (vec : List T) :
    vector_to_list_converter.convert to_python vec = .list (vec.map to_python) ∧
    PySequence_Size (vector_to_list_converter.convert to_python vec) = (vec.length : Int) ∧
    (∀ i : Nat, PySequence_GetItem (vector_to_list_converter.convert to_python vec) (i : Int)
      = (vec[i]?).map to_python) ∧
    vector_to_list_converter.convert to_python ([] : List T) = .list [] := by
  refine ⟨convert_eq_list_map to_python vec, ?_, ?_, rfl⟩
  · rw [convert_eq_list_map]
    simp [PySequence_Size]
  · intro i
    rw [convert_eq_list_map, getItem_list_natCast]
    simp

/-- C10, the claim as stated fails: a host list of length 2 whose first element does not
convert to `int`.  Its reported length is non-negative, yet the retrieval loop is left by
the exception after a single retrieval, and with no amount of fuel does it make two. -/
theorem sequence_loop_stops_early :
    PySequence_Size (.list [.none, .int 5]) = 2 ∧
    vector_from_sequence_converter.loop extract_int (.list [.none, .int 5]) 2 3 0 [] []
      = ⟨[], [0], .error_already_set⟩ ∧
    ¬ ∃ fuel,
      (vector_from_sequence_converter.loop extract_int (.list [.none, .int 5]) 2 fuel 0 [] []
        ).fetched.length = 2 := by
  refine ⟨rfl, rfl, ?_⟩
  rintro ⟨fuel, h⟩
  cases fuel with
  | zero => simp [vector_from_sequence_converter.loop] at h
  | succ g =>
    have e := @seq_loop_refused CInt extract_int (.list [.none, .int 5]) 2 0 .none g [] []
      (by decide) rfl rfl
    simp only [Nat.cast_zero] at e
    rw [e] at h
    simp at h

/-- C10, amended: for a host sequence whose reported length `n` is non-negative, the
retrieval loop of `vector_from_sequence_converter::construct` ends within `n + 1` tests
of its condition; it retrieves the positions `0, ..., m-1` for some `m ≤ n`, hence only
positions below `n`, and `m = n` when it is left through its test; when every element at
`0 .. n-1` converts it is left through its test after exactly `n` retrievals.  When the
reported length is negative (`-1`, the failure value of the length query) the loop is
never left through its test, whatever the fuel: the counter, ascending from 0, never
equals it, and as long as the elements convert the loop keeps running. -/
theorem sequence_loop_terminates {T : Type} (extract : PyObject → Option T)
    (obj_ptr : PyObject) (fuel : Nat) :
    (∀ n : Nat, PySequence_Size obj_ptr = (n : Int) → n < fuel →
      (vector_from_sequence_converter.loop extract obj_ptr (PySequence_Size obj_ptr)
          fuel 0 [] []).exit ≠ .running ∧
      (∃ m, m ≤ n ∧
        (vector_from_sequence_converter.loop extract obj_ptr (PySequence_Size obj_ptr)
          fuel 0 [] []).fetched = positions m ∧
        ((vector_from_sequence_converter.loop extract obj_ptr (PySequence_Size obj_ptr)
          fuel 0 [] []).exit = .returned → m = n)) ∧
      (∀ f : Nat → T, (∀ i, i < n → converted_item extract obj_ptr i = some (f i)) →
        vector_from_sequence_converter.loop extract obj_ptr (PySequence_Size obj_ptr)
          fuel 0 [] [] = ⟨(List.range n).map f, positions n, .returned⟩)) ∧
    (PySequence_Size obj_ptr < 0 →
      (vector_from_sequence_converter.loop extract obj_ptr (PySequence_Size obj_ptr)
          fuel 0 [] []).exit ≠ .returned ∧
      (∀ f : Nat → T, (∀ i, i < fuel → converted_item extract obj_ptr i = some (f i)) →
        vector_from_sequence_converter.loop extract obj_ptr (PySequence_Size obj_ptr)
          fuel 0 [] [] = ⟨(List.range fuel).map f, positions fuel, .running⟩)) := by
  constructor
  · intro n hsize hfuel
    rw [hsize]
    obtain ⟨h1, m, hm, hf, hr⟩ :=
      seq_loop_bounded extract obj_ptr n fuel 0 [] [] (Nat.zero_le n) (by omega)
    simp only [Nat.cast_zero] at h1 hf hr
    refine ⟨h1, ⟨m, by omega, ?_, fun h => by have := hr h; omega⟩, ?_⟩
    · rw [hf, positions_eq_range']
      simp
    · intro f hconv
      obtain ⟨g, rfl⟩ : ∃ g, fuel = (g + 1) + n := ⟨fuel - n - 1, by omega⟩
      have h := seq_loop_steps extract obj_ptr (n : Int) f n 0 (g + 1) [] []
        (fun j _ hj => by omega) (fun j _ hj => hconv j (by omega))
      simp only [Nat.cast_zero, Nat.zero_add] at h
      rw [h, seq_loop_at_size]
      simp [positions_eq_range', List.range_eq_range']
  · intro hneg
    refine ⟨seq_loop_never_returns_of_negative extract obj_ptr _ hneg fuel 0 [] []
      (le_refl 0), ?_⟩
    intro f hconv
    have h := seq_loop_steps extract obj_ptr (PySequence_Size obj_ptr) f fuel 0 0 [] []
      (fun j _ _ => by omega) (fun j _ hj => hconv j (by omega))
    simp only [Nat.cast_zero, Nat.zero_add] at h
    rw [h]
    simp [vector_from_sequence_converter.loop, positions_eq_range', List.range_eq_range']

/-- C10 (amended) on the host list `[1, None]`, whose length is 2, on the host list
`[8, 9]`, and on an object whose length query fails. -/
theorem sequence_loop_terminates_witness :
    vector_from_sequence_converter.loop extract_int (.list [.int 8, .int 9])
        (PySequence_Size (.list [.int 8, .int 9])) 3 0 [] []
      = ⟨[⟨8, by decide⟩, ⟨9, by decide⟩], [0, 1], .returned⟩ ∧
    ((vector_from_sequence_converter.loop extract_int (.list [.int 1, .none])
          (PySequence_Size (.list [.int 1, .none])) 3 0 [] []).exit ≠ .running ∧
      (∃ m, m ≤ 2 ∧
        (vector_from_sequence_converter.loop extract_int (.list [.int 1, .none])
          (PySequence_Size (.list [.int 1, .none])) 3 0 [] []).fetched = positions m ∧
        ((vector_from_sequence_converter.loop extract_int (.list [.int 1, .none])
          (PySequence_Size (.list [.int 1, .none])) 3 0 [] []).exit = .returned → m = 2))) ∧
    ((vector_from_sequence_converter.loop extract_int unsized_sequence
        (PySequence_Size unsized_sequence) 3 0 [] []).exit ≠ .returned ∧
      vector_from_sequence_converter.loop extract_int unsized_sequence
        (PySequence_Size unsized_sequence) 3 0 [] []
      = ⟨[⟨0, by decide⟩, ⟨0, by decide⟩, ⟨0, by decide⟩], [0, 1, 2], .running⟩) :=
  ⟨((sequence_loop_terminates extract_int (.list [.int 8, .int 9]) 3).1 2 rfl
        (by decide)).2.2
      (fun i => ([⟨8, by decide⟩, ⟨9, by decide⟩] : List CInt).getD i ⟨0, by decide⟩)
      (by intro i hi; interval_cases i <;> rfl),
    ⟨((sequence_loop_terminates extract_int (.list [.int 1, .none]) 3).1 2 rfl
        (by decide)).1,
      ((sequence_loop_terminates extract_int (.list [.int 1, .none]) 3).1 2 rfl
        (by decide)).2.1⟩,
    ⟨((sequence_loop_terminates extract_int unsized_sequence 3).2 (by decide)).1,
      ((sequence_loop_terminates extract_int unsized_sequence 3).2 (by decide)).2
        (fun _ => ⟨0, by decide⟩) (fun _ _ => rfl)⟩⟩

/-- C4: for a host iterator whose successive `PyIter_Next` calls yield `n` items that all
convert to `T` (`f i` being the conversion of item number `i`) and then report
exhaustion, `vector_from_iterator_converter::construct` on an empty vector, entered with
no error pending, returns normally after `n + 1` fetches without raising, and the vector
holds exactly the `n` converted items in the order they were yielded. -/
theorem iterator_construct_drains {T : Type} (extract : PyObject → Option T)
    (obj_ptr : PyObject) (n : Nat) (f : Nat → T) (fuel : Nat)
    (hconv : ∀ i, i < n → converted_next extract obj_ptr i = some (f i))
    (hstop : PyIter_Next obj_ptr n = .stop)
    (hfuel : n < fuel) :
    vector_from_iterator_converter.construct extract fuel false [] obj_ptr
      = ⟨(List.range n).map f, n + 1, false, .returned⟩ := by
  obtain ⟨g, rfl⟩ : ∃ g, fuel = (g + 1) + n := ⟨fuel - n - 1, by omega⟩
  have h := iter_loop_steps extract obj_ptr f n 0 (g + 1) false []
    (fun j _ hj => hconv j (by omega))
  simp only [Nat.zero_add, List.nil_append] at h
  unfold vector_from_iterator_converter.construct
  rw [h, iter_loop_stop extract g false _ hstop]
  simp [List.range_eq_range']

/-- C4 on a generator that yields 4, 5, 6 and returns. -/
theorem iterator_construct_drains_witness :
    vector_from_iterator_converter.convertible
        (generator [.int 4, .int 5, .int 6] .stop) = true ∧
    vector_from_iterator_converter.construct extract_int 4 false []
        (generator [.int 4, .int 5, .int 6] .stop)
      = ⟨[⟨4, by decide⟩, ⟨5, by decide⟩, ⟨6, by decide⟩], 4, false, .returned⟩ :=
  ⟨rfl, iterator_construct_drains extract_int (generator [.int 4, .int 5, .int 6] .stop) 3
    (fun i => ([⟨4, by decide⟩, ⟨5, by decide⟩, ⟨6, by decide⟩] : List CInt).getD i
      ⟨0, by decide⟩) 4
    (by intro i hi; interval_cases i <;> rfl) rfl (by decide)⟩

/-- C5: for a host iterator whose successive `PyIter_Next` calls yield `n` items that all
convert to `T` and whose next call fails with an error raised by the iteration machinery,
the fetch loop of `vector_from_iterator_converter::construct` ends with exactly the `n`
converted items, in order, in the vector and with the error pending; `construct` then
throws `error_already_set`, the vector still holding those items; and with no amount of
fuel does `construct` return normally. -/
theorem iterator_construct_propagates_error {T : Type} (extract : PyObject → Option T)
    (obj_ptr : PyObject) (n : Nat) (f : Nat → T) (err : Bool)
    (hconv : ∀ i, i < n → converted_next extract obj_ptr i = some (f i))
    (herr : PyIter_Next obj_ptr n = .error) :
    (∀ fuel, n < fuel →
      vector_from_iterator_converter.loop extract obj_ptr fuel 0 err []
        = ⟨(List.range n).map f, n + 1, true, .returned⟩ ∧
      vector_from_iterator_converter.construct extract fuel err [] obj_ptr
        = ⟨(List.range n).map f, n + 1, true, .error_already_set⟩) ∧
    (∀ fuel,
      (vector_from_iterator_converter.construct extract fuel err [] obj_ptr).exit
        ≠ .returned) := by
  constructor
  · intro fuel hfuel
    obtain ⟨g, rfl⟩ : ∃ g, fuel = (g + 1) + n := ⟨fuel - n - 1, by omega⟩
    have h := iter_loop_steps extract obj_ptr f n 0 (g + 1) err []
      (fun j _ hj => hconv j (by omega))
    simp only [Nat.zero_add, List.nil_append] at h
    have hl : vector_from_iterator_converter.loop extract obj_ptr (g + 1 + n) 0 err []
        = ⟨(List.range n).map f, n + 1, true, .returned⟩ := by
      rw [h, iter_loop_error extract g err _ herr]
      simp [List.range_eq_range']
    refine ⟨hl, ?_⟩
    unfold vector_from_iterator_converter.construct
    rw [hl]
    rfl
  · intro fuel hret
    obtain ⟨h1, h2⟩ := iter_construct_exit_returned extract fuel err [] obj_ptr hret
    have h3 := iter_loop_err_of_error f hconv herr fuel 0 err [] (Nat.zero_le n) h1
    rw [h3] at h2
    cases h2

/-- C5 on a generator that yields 1, 2, 3 and then raises. -/
theorem iterator_construct_propagates_error_witness :
    (∀ fuel, 3 < fuel →
      vector_from_iterator_converter.loop extract_int
          (generator [.int 1, .int 2, .int 3] .error) fuel 0 false []
        = ⟨[⟨1, by decide⟩, ⟨2, by decide⟩, ⟨3, by decide⟩], 4, true, .returned⟩ ∧
      vector_from_iterator_converter.construct extract_int fuel false []
          (generator [.int 1, .int 2, .int 3] .error)
        = ⟨[⟨1, by decide⟩, ⟨2, by decide⟩, ⟨3, by decide⟩], 4, true,
            .error_already_set⟩) ∧
    (∀ fuel,
      (vector_from_iterator_converter.construct extract_int fuel false []
          (generator [.int 1, .int 2, .int 3] .error)).exit ≠ .returned) :=
  iterator_construct_propagates_error extract_int (generator [.int 1, .int 2, .int 3] .error) 3
    (fun i => ([⟨1, by decide⟩, ⟨2, by decide⟩, ⟨3, by decide⟩] : List CInt).getD i
      ⟨0, by decide⟩) false
    (by intro i hi; interval_cases i <;> rfl) rfl

/-- The acceptance by `convertible` matters on the legacy branch
(`PY_MAJOR_VERSION < 3`): the integer `2^63`, an enumerator of an enumeration over
`unsigned long`, is not of the small-integer type; `convertible` rejects it, so that
`construct` is not handed it, and applied to it all the same `construct` and `convert`
would give `-1`. -/
theorem enum_legacy_rejects_wide :
    9223372036854775808 ∈ wide_flags.enumerators ∧
    enum_from_int_converter.convertible 2 (.int 9223372036854775808) = false ∧
    enum_to_int_converter.convert 2
        (enum_from_int_converter.construct 2 wide_flags.underlying
          (.int 9223372036854775808)).enumval = PyObject.int (-1) ∧
    enum_to_int_converter.convert 2
        (enum_from_int_converter.construct 2 wide_flags.underlying
          (.int 9223372036854775808)).enumval ≠ PyObject.int 9223372036854775808 := by
  have h : enum_to_int_converter.convert 2
        (enum_from_int_converter.construct 2 wide_flags.underlying
          (.int 9223372036854775808)).enumval = PyObject.int (-1) := by
    simp [enum_to_int_converter.convert, enum_from_int_converter.construct, wide_flags,
      PyInt_AsLong, LONG_MIN, LONG_MAX, static_cast_enum, static_cast_ulong, ulong_to_long,
      PyInt_FromLong, UnderlyingType.bits]
  refine ⟨by simp [wide_flags], by decide, h, ?_⟩
  rw [h]
  intro e
  injection e with e
  omega

/-- C7: for every enumeration type and every underlying value `v` of one of its
enumerators, the host integer `v` that `enum_from_int_converter::construct` is handed
(it is handed the objects `enum_from_int_converter::convertible` accepts: every integer
on the modern branch, the integers of the small-integer type on the legacy branch),
converted with `construct` and back with `enum_to_int_converter::convert`, gives the host
integer `v`, with no error set. -/
theorem enum_int_roundtrip (PY_MAJOR_VERSION : Nat) (E : EnumType) (v : Nat)
    (hv : v ∈ E.enumerators)
    (hacc : enum_from_int_converter.convertible PY_MAJOR_VERSION (.int v) = true) :
    enum_to_int_converter.convert PY_MAJOR_VERSION
        (enum_from_int_converter.construct PY_MAJOR_VERSION E.underlying (.int v)).enumval
      = PyObject.int v ∧
    (enum_from_int_converter.construct PY_MAJOR_VERSION E.underlying (.int v)).err = false := by
  have hlt : v < 2 ^ E.underlying.bits := E.fits v hv
  have h64 : v < 2 ^ 64 := lt_of_lt_of_le hlt (bits_le_64 _)
  have hcast := static_cast_enum_of_lt E.underlying v hlt
  have hul := static_cast_ulong_of_lt E.underlying v hlt
  unfold enum_from_int_converter.convertible at hacc
  unfold enum_to_int_converter.convert enum_from_int_converter.construct
  by_cases hpy : PY_MAJOR_VERSION < 3
  · simp only [hpy, if_true] at hacc ⊢
    have hr : LONG_MIN ≤ (v : Int) ∧ (v : Int) ≤ LONG_MAX := by
      simpa [PyInt_Check] using hacc
    simp only [PyInt_AsLong, hr, and_self, if_true, hcast, hul, ulong_to_long, PyInt_FromLong]
  · simp only [hpy, if_false]
    have hr : 0 ≤ (v : Int) ∧ (v : Int) ≤ (ULONG_MAX : Int) := by
      unfold ULONG_MAX
      constructor
      · omega
      · have : v < 18446744073709551616 := by simpa using h64
        omega
    simp only [PyLong_AsUnsignedLong, hr, and_self, if_true, Int.toNat_ofNat, hcast, hul,
      PyLong_FromUnsignedLong]

/-- C7 on the enumerator `2^63` with the modern branch and on the enumerator `1` with the
legacy branch. -/
theorem enum_int_roundtrip_witness :
    (enum_to_int_converter.convert 3
        (enum_from_int_converter.construct 3 wide_flags.underlying
          (.int (9223372036854775808 : Nat))).enumval
      = PyObject.int (9223372036854775808 : Nat) ∧
    (enum_from_int_converter.construct 3 wide_flags.underlying
      (.int (9223372036854775808 : Nat))).err = false) ∧
    (enum_to_int_converter.convert 2
        (enum_from_int_converter.construct 2 wide_flags.underlying
          (.int (1 : Nat))).enumval = PyObject.int (1 : Nat) ∧
    (enum_from_int_converter.construct 2 wide_flags.underlying (.int (1 : Nat))).err = false) :=
  ⟨enum_int_roundtrip 3 wide_flags 9223372036854775808 (by simp [wide_flags]) rfl,
    enum_int_roundtrip 2 wide_flags 1 (by simp [wide_flags]) (by decide)⟩

/-- C8, the code at the failing input: on the modern branch (`PY_MAJOR_VERSION >= 3`) the
host integer `-2`, which `enum_from_int_converter::convertible` accepts, converted by
`construct` to an enumeration over `unsigned char`, gives the value `255` and leaves an
error set, where the truncation of the two's-complement bit pattern to 8 bits is `254`,
which is what the legacy branch produces for the same integer, with no error.  Likewise
`2^64 + 5` gives `255` with an error set, where the truncation is `5`. -/
theorem enum_construct_negative_modern :
    enum_from_int_converter.convertible 3 (.int (-2)) = true ∧
    enum_from_int_converter.construct 3 .unsigned_char (.int (-2)) = ⟨255, true⟩ ∧
    ((-2 : Int) % 2 ^ UnderlyingType.unsigned_char.bits).toNat = 254 ∧
    enum_from_int_converter.construct 2 .unsigned_char (.int (-2)) = ⟨254, false⟩ ∧
    enum_from_int_converter.construct 3 .unsigned_char (.int 18446744073709551621)
      = ⟨255, true⟩ ∧
    ((18446744073709551621 : Int) % 2 ^ UnderlyingType.unsigned_char.bits).toNat = 5 := by
  refine ⟨rfl, ?_, by decide, ?_, ?_, by decide⟩
  · simp [enum_from_int_converter.construct, PyLong_AsUnsignedLong, ULONG_MAX,
      static_cast_enum, UnderlyingType.bits]
  · simp [enum_from_int_converter.construct, PyInt_AsLong, LONG_MIN, LONG_MAX,
      static_cast_enum, UnderlyingType.bits]
  · simp [enum_from_int_converter.construct, PyLong_AsUnsignedLong, ULONG_MAX,
      static_cast_enum, UnderlyingType.bits]

/-- Within the range of the accessor the build uses (legacy branch:
`LONG_MIN ≤ n ≤ LONG_MAX`, negative integers included; modern branch:
`0 ≤ n ≤ ULONG_MAX`), integers wider than the enumeration's underlying type of width `w`
included, `enum_from_int_converter::construct` validates no range, sets no error, and
produces the enumeration value whose underlying value is `n mod 2^w`. -/
theorem enum_construct_truncates (PY_MAJOR_VERSION : Nat) (U : UnderlyingType) (n : Int)
    (hrange : if PY_MAJOR_VERSION < 3 then LONG_MIN ≤ n ∧ n ≤ LONG_MAX
      else 0 ≤ n ∧ n ≤ (ULONG_MAX : Int)) :
    enum_from_int_converter.construct PY_MAJOR_VERSION U (.int n)
      = ⟨(n % 2 ^ U.bits).toNat, false⟩ := by
  unfold enum_from_int_converter.construct
  by_cases hpy : PY_MAJOR_VERSION < 3
  · simp only [hpy, if_true] at hrange ⊢
    simp only [PyInt_AsLong, hrange, and_self, if_true, static_cast_enum]
  · simp only [hpy, if_false] at hrange ⊢
    have h0 : ((n.toNat : Nat) : Int) = n := Int.toNat_of_nonneg hrange.1
    simp only [PyLong_AsUnsignedLong, hrange, and_self, if_true, static_cast_enum, h0]

end python_converters
end das
